import Mathlib

set_option maxRecDepth 8000

/-!
Verification of the comics-encyclopedia data loader and search engine
(`encyclopedia.py`): a shallow embedding of `ComicsDatasetManager.load_data`,
`ComicSearchService` (filter, sort, manual search, advanced search, report)
and the utility `handle_special_characters`, together with theorems about
the published behavioural claims.

Python strings are modelled as Lean `String`; `str.lower`, substring
containment (`in` / `str.contains`) and lexicographic comparison are given
executable char-list implementations so every definition evaluates inside
the kernel.  Missing values (pandas `NaN`) are modelled as `Option.none`.
-/

/-- `a in b` for Python strings: prefix test for char lists. -/
def isPrefixCL : List Char → List Char → Bool
  | [], _ => true
  | _ :: _, [] => false
  | a :: as, b :: bs => a == b && isPrefixCL as bs

/-- Substring containment on char lists (Python `needle in hay`). -/
def containsCL (hay needle : List Char) : Bool :=
  match hay with
  | [] => isPrefixCL needle []
  | _ :: rest => isPrefixCL needle hay || containsCL rest needle

/-- ASCII lowering of one character, as Python `str.lower()` acts on the
ASCII range.  Python lowercases all of Unicode; the theorems below restrict
their data to ASCII, where the two functions agree. -/
def lowerCharPy : Char → Char
  | 'A' => 'a' | 'B' => 'b' | 'C' => 'c' | 'D' => 'd' | 'E' => 'e' | 'F' => 'f'
  | 'G' => 'g' | 'H' => 'h' | 'I' => 'i' | 'J' => 'j' | 'K' => 'k' | 'L' => 'l'
  | 'M' => 'm' | 'N' => 'n' | 'O' => 'o' | 'P' => 'p' | 'Q' => 'q' | 'R' => 'r'
  | 'S' => 's' | 'T' => 't' | 'U' => 'u' | 'V' => 'v' | 'W' => 'w' | 'X' => 'x'
  | 'Y' => 'y' | 'Z' => 'z'
  | c => c

/-- Python `str.lower()` restricted to ASCII (see `lowerCharPy`). -/
def str_lower (s : String) : String := ⟨s.data.map lowerCharPy⟩

/-- Literal substring containment on strings (Python `needle in hay`).
This is the specification's notion of "contains"; the engine's masks use
`re_search` below, because `Series.str.contains` treats its argument as a
regular expression. -/
def str_contains_sub (hay needle : String) : Bool := containsCL hay.data needle.data

/-- The characters `re` treats specially in a pattern. -/
def regexMetachars : List Char :=
  ['.', '^', '$', '*', '+', '?', '\x7b', '\x7d', '[', ']', '\\', '|', '(', ')']

/-- A query that the claims may safely quantify over: ASCII characters
only (so `str_lower` agrees with Python) and no regex metacharacter (so
`re.search` degenerates to a literal substring test). -/
def isPlainQuery (q : String) : Bool :=
  q.data.all (fun c => decide (c.val < 128) && !(regexMetachars.contains c))

def strAscii (s : String) : Bool := s.data.all (fun c => decide (c.val < 128))

/-- Does one pattern character match one text character?  `'.'` matches
anything but a newline; every other character only itself.  This is
`re.search` semantics on the fragment of patterns free of quantifiers,
classes, anchors, alternation and escapes — the fragment the theorems
below quantify over. -/
def charMatchesPat (p c : Char) : Bool := if p == '.' then c != '\n' else p == c

/-- Does the pattern match at the start of the text? -/
def patHere : List Char → List Char → Bool
  | [], _ => true
  | _ :: _, [] => false
  | p :: ps, c :: cs => charMatchesPat p c && patHere ps cs

/-- Does the pattern match anywhere in the text (`re.search`)? -/
def reSearchCL (text pat : List Char) : Bool :=
  match text with
  | [] => patHere pat []
  | _ :: rest => patHere pat text || reSearchCL rest pat

/-- `re.search(pat, s)` on the literal-and-dot pattern fragment:
`Series.str.contains` defaults to `regex=True`, so the query is a regex
pattern, not a literal substring. -/
def re_search (pat s : String) : Bool := reSearchCL s.data pat.data

/-- Python `a < b` on strings: strict lexicographic order on code points. -/
def lexLt : List Char → List Char → Bool
  | [], [] => false
  | [], _ :: _ => true
  | _ :: _, [] => false
  | a :: as, b :: bs => if a == b then lexLt as bs else decide (a.val < b.val)

/-- Python `a <= b` on strings. -/
def lexLe : List Char → List Char → Bool
  | [], _ => true
  | _ :: _, [] => false
  | a :: as, b :: bs => if a == b then lexLe as bs else decide (a.val < b.val)

def strLt (a b : String) : Bool := lexLt a.data b.data

def strLe (a b : String) : Bool := lexLe a.data b.data

/-!  Data model.  A row of the records source (`records.csv`) after the
column-name strip; the unified output columns (`Title`, `Date of
publication`, `Genre`, `ISBN`, optional `Languages` / `Type of name`) are
all taken from the records side of the first merge (`Title_rec`, ...). -/

structure RecRow where
  id : Nat
  title : Option String
  date : Option String
  genre : Option String
  isbn : Option String
  languages : Option String
  typeOfName : Option String
deriving DecidableEq

/-- A row of the titles source.  Its non-key columns get the `_tit` suffix
in the merge and never reach the unified output columns. -/
structure TitleRow where
  id : Nat
  title : Option String
deriving DecidableEq

/-- A row of the names source (`names.csv`). -/
structure AuthorRow where
  id : Nat
  name : Option String
deriving DecidableEq

/-- A row of the final joined table (and of any table fed to the search
service).  `none` models a pandas missing value. -/
structure Row where
  id : Nat
  title : Option String
  name : Option String
  date : Option String
  genre : Option String
  isbn : Option String
  languages : Option String
  typeOfName : Option String
deriving DecidableEq

/-- `handle_special_characters`: a missing value becomes `""`; re-encoding
valid text through UTF-8 with replacement is the identity, so ordinary
strings pass through unchanged. -/
def handle_special_characters : Option String → String
  | none => ""
  | some s => s

/-- First-seen deduplication, as pandas `Series.unique()`. -/
def dedupFS : List String → List String
  | [] => []
  | x :: xs => x :: (dedupFS xs).filter (fun y => y ≠ x)

def insertSortedNat (x : Nat) : List Nat → List Nat
  | [] => [x]
  | y :: ys => if x ≤ y then x :: y :: ys else y :: insertSortedNat x ys

def sortNats : List Nat → List Nat
  | [] => []
  | x :: xs => insertSortedNat x (sortNats xs)

/-- The distinct group keys of `groupby`, in ascending order (pandas sorts
group keys by default). -/
def uniqueSortedIds (authors : List AuthorRow) : List Nat :=
  sortNats ((authors.map (fun a => a.id)).dedup)

/-- `authors.groupby(id)["Name"].apply(lambda names: "; ".join(names.dropna().unique()))`:
one string per identifier, the non-missing names in first-seen order with
duplicates removed, joined by `"; "`. -/
def group_names (authors : List AuthorRow) : List (Nat × String) :=
  (uniqueSortedIds authors).map (fun i =>
    (i, String.intercalate "; "
      (dedupFS ((authors.filter (fun a => a.id == i)).filterMap (fun a => a.name)))))

/-- The left join of records onto titles on the record id.  Every record
row appears once per matching title row (or once when no title matches);
the unified output columns all come from the records side, so the merge
only replicates record rows. -/
def mergeRecsTitles (recs : List RecRow) (titles : List TitleRow) : List RecRow :=
  recs.flatMap (fun r =>
    List.replicate (max 1 ((titles.filter (fun t => t.id == r.id)).length)) r)

def permitted_genres : List String := ["Fantasy", "Horror", "Science Fiction"]

/-- Does a (sanitized) genre lie in the permitted set?  (`Series.isin`). -/
def genreAllowed : Option String → Bool
  | some g => permitted_genres.contains g
  | none => false

/-- `ComicsDatasetManager.load_data`, success path: merge records and
titles, build the unified columns with `ISBN` defaulted to `"missing"`,
left-join the grouped author names, sanitize `Title` / `Name` / `Genre`,
and keep only rows whose genre is permitted.  (The `Topics` reformatting
step is vacuous here: the modelled sources carry no `Topics` column.) -/
def load_data (recs : List RecRow) (titles : List TitleRow)
    (authors : List AuthorRow) : List Row :=
  let merged := mergeRecsTitles recs titles
  let grouped := group_names authors
  let rows := merged.map (fun r =>
    { id := r.id
      title := some (handle_special_characters r.title)
      name := some (handle_special_characters (grouped.lookup r.id))
      date := r.date
      genre := some (handle_special_characters r.genre)
      isbn := some (r.isbn.getD "missing")
      languages := r.languages
      typeOfName := r.typeOfName : Row })
  rows.filter (fun row => genreAllowed row.genre)

/-- A pandas frame as the rest of the system sees it: its rows and its
column set.  `pd.DataFrame()` — the value the loader's `except` branch
substitutes — has no rows and, crucially, no columns, so `df[col]` on it
raises `KeyError`. -/
structure Frame where
  rows : List Row
  cols : List String
deriving DecidableEq

/-- The unified columns of a successfully loaded table (the suffixed merge
columns are elided: nothing downstream reads them). -/
def loadedColumns : List String :=
  ["BL record ID", "Title", "Name", "Date of publication", "Genre", "ISBN",
   "Languages", "Type of name"]

/-- `load_data` with its `try/except` boundary: any failure while reading
or merging the sources (unreadable file, parse error, missing join column)
raises before `full_data` is assigned; the handler shows
`"Failed to load data: ..."` and substitutes `pd.DataFrame()`, a frame
with no rows and no columns. -/
def load_frame
    (src : Except String (List RecRow × List TitleRow × List AuthorRow)) :
    Frame × Option String :=
  match src with
  | .error err => (⟨[], []⟩, some ("Failed to load data: " ++ err))
  | .ok (r, t, a) => (⟨load_data r t a, loadedColumns⟩, none)

/-!  Search engine (`ComicSearchService`). -/

/-- Counter key for result frequencies: the raw `Title` cell, which may be
missing (a missing title is a legal Python `Counter` key). -/
abbrev TitleKey := Option String

/-- Engine state: the table handed to the constructor plus the mutable
query history and result-frequency counter (`collections.Counter`,
modelled as an association list in key-insertion order). -/
structure SearchState where
  full_data : List Row
  query_history : List String
  comic_frequency : List (TitleKey × Nat)
deriving DecidableEq

/-- `ComicSearchService.__init__`. -/
def init_service (df : List Row) : SearchState :=
  { full_data := df, query_history := [], comic_frequency := [] }

/-- `counter[k] += 1`: bump an existing key in place, else append it with
count 1 (Python `Counter` keeps insertion order). -/
def bumpCount {α : Type} [BEq α] (c : List (α × Nat)) (k : α) : List (α × Nat) :=
  if c.any (fun e => e.1 == k) then
    c.map (fun e => if e.1 == k then (e.1, e.2 + 1) else e)
  else c ++ [(k, 1)]

/-- `counter[k]` as a read: 0 for an absent key. -/
def getCount {α : Type} [BEq α] (c : List (α × Nat)) (k : α) : Nat :=
  match c.find? (fun e => e.1 == k) with
  | some e => e.2
  | none => 0

/-- `Counter(iterable)`: counts built up in first-occurrence order. -/
def counterOf (l : List String) : List (String × Nat) :=
  l.foldl bumpCount []

/-- The search mask of `manual_search`:
`Title.str.lower().str.contains(query.lower(), na=False)` — a missing
title yields `False`, and the lowered query is a regex pattern. -/
def titleMatches (t : Option String) (q : String) : Bool :=
  match t with
  | none => false
  | some s => re_search (str_lower q) (str_lower s)

/-- The specification's reading of the mask: the lowered query occurs in
the lowered title as a literal substring (missing titles never match).
It agrees with `titleMatches` exactly on metacharacter-free queries. -/
def title_contains_sub (t : Option String) (q : String) : Bool :=
  match t with
  | none => false
  | some s => str_contains_sub (str_lower s) (str_lower q)

/-- Is the title cell ASCII (vacuously so when missing)?  On ASCII data
the embedded lowering agrees with the full Unicode `str.lower()`. -/
def titleIsAscii (r : Row) : Bool :=
  match r.title with
  | none => true
  | some t => strAscii t

/-- Fold of `for comic in results["Title"]: comic_frequency[comic] += 1`. -/
def bumpTitles (c : List (TitleKey × Nat)) (rows : List Row) : List (TitleKey × Nat) :=
  rows.foldl (fun acc r => bumpCount acc r.title) c

/-- `ComicSearchService.manual_search`: empty query returns the full table
with no state change; otherwise filter by the title mask, append the
literal query to history and bump the counter once per result row. -/
def manual_search (s : SearchState) (q : String) : List Row × SearchState :=
  if q = "" then (s.full_data, s)
  else
    let found := s.full_data.filter (fun r => titleMatches r.title q)
    (found,
      { s with
        query_history := s.query_history ++ [q]
        comic_frequency := bumpTitles s.comic_frequency found })

/-- The columns of the joined table that advanced search may receive (the
UI offers Name, Date of publication, Genre, Languages, Type of name). -/
inductive Col where
  | title
  | name
  | date
  | genre
  | isbn
  | languages
  | typeOfName
deriving DecidableEq

def fieldName : Col → String
  | .title => "Title"
  | .name => "Name"
  | .date => "Date of publication"
  | .genre => "Genre"
  | .isbn => "ISBN"
  | .languages => "Languages"
  | .typeOfName => "Type of name"

def fieldVal (r : Row) : Col → Option String
  | .title => r.title
  | .name => r.name
  | .date => r.date
  | .genre => r.genre
  | .isbn => r.isbn
  | .languages => r.languages
  | .typeOfName => r.typeOfName

/-- `df[col].astype(str)`: the string representation of a cell; a missing
value prints as `"nan"`. -/
def fieldAsStr (r : Row) (f : Col) : String :=
  (fieldVal r f).getD "nan"

/-- One column mask of `advanced_search`:
`df[col].astype(str).str.lower().str.contains(value.lower(), na=False)`;
the lowered value is a regex pattern. -/
def paramMatches (r : Row) (p : Col × String) : Bool :=
  re_search (str_lower p.2) (str_lower (fieldAsStr r p.1))

/-- Python `', '.join(parts)`. -/
def joinComma : List String → String
  | [] => ""
  | [x] => x
  | x :: y :: xs => x ++ ", " ++ joinComma (y :: xs)

/-- The recorded composite query `"field1=value1, field2=value2"` over the
non-empty pairs, in mapping iteration order. -/
def combinedQuery (params : List (Col × String)) : String :=
  joinComma ((params.filter (fun p => p.2 ≠ "")).map
    (fun p => fieldName p.1 ++ "=" ++ p.2))

/-- One iteration of the `advanced_search` loop: a parameter with an empty
value leaves the working set alone, any other narrows it by its mask. -/
def advStep (acc : List Row) (p : Col × String) : List Row :=
  if p.2 = "" then acc else acc.filter (fun r => paramMatches r p)

/-- `ComicSearchService.advanced_search`: successively narrow the full
table by every parameter with a non-empty value; when the composite query
string is non-empty, record it and bump the counter once per result row. -/
def advanced_search (s : SearchState) (params : List (Col × String)) :
    List Row × SearchState :=
  let filtered := params.foldl advStep s.full_data
  let combined := combinedQuery params
  if combined = "" then (filtered, s)
  else
    (filtered,
      { s with
        query_history := s.query_history ++ [combined]
        comic_frequency := bumpTitles s.comic_frequency filtered })

/-- `ComicSearchService.filter_by_genre`: exact equality on the `Genre`
cell unless the sentinel `"All"` is passed. -/
def filter_by_genre (s : SearchState) (genre : String) : List Row :=
  if genre ≠ "All" then s.full_data.filter (fun r => r.genre == some genre)
  else s.full_data

/-- The quicksort of `sort_by_title`, on the title strings:
`less = [i for i in items[1:] if i <= pivot]`,
`greater = [i for i in items[1:] if i > pivot]`.  The extra fuel argument
makes the recursion structural; `fuel = items.length` always suffices
because both partitions are shorter than the input. -/
def qsortFuel : Nat → List String → List String
  | 0, l => l
  | _ + 1, [] => []
  | fuel + 1, pivot :: rest =>
      qsortFuel fuel (rest.filter (fun i => strLe i pivot)) ++
        pivot :: qsortFuel fuel (rest.filter (fun i => strLt pivot i))

def qsort (l : List String) : List String := qsortFuel l.length l

/-- `ComicSearchService.sort_by_title`: quicksort the title column, reverse
it when descending, then re-select rows by
`df.set_index("Title").loc[sorted_titles]`.  On a non-unique title index,
`.loc` returns every row carrying a label once for each occurrence of that
label in the list.  (Comparing a missing title raises in the source; a
missing title is read here as `""`, the value the loader's sanitization
produces.) -/
def sort_by_title (df : List Row) (ascending : Bool) : List Row :=
  let title_list := df.map (fun r => r.title.getD "")
  let sorted_titles := qsort title_list
  let sorted_titles := if ascending then sorted_titles else sorted_titles.reverse
  sorted_titles.flatMap (fun t => df.filter (fun r => r.title.getD "" == t))

/-!  Column-aware variants of the search operations, for the failure path.
The plain `SearchState` model takes a table whose columns exist — any
table produced by a successful load.  After a failed load `full_data` is
the columnless `pd.DataFrame()`, and each operation's first column access
(`self.full_data["Title"]`, `filtered_df[col]`, `full_data["Genre"]`)
raises `KeyError`; these variants make that access explicit.  They return
only the result rows; the history/counter plumbing is unchanged from the
plain model and is never reached when the access raises. -/

def manual_search_cols (f : Frame) (q : String) : Except String (List Row) :=
  if q = "" then .ok f.rows
  else if f.cols.contains "Title" then
    .ok (f.rows.filter (fun r => titleMatches r.title q))
  else .error "KeyError: Title"

def filter_by_genre_cols (f : Frame) (genre : String) : Except String (List Row) :=
  if genre ≠ "All" then
    if f.cols.contains "Genre" then
      .ok (f.rows.filter (fun r => r.genre == some genre))
    else .error "KeyError: Genre"
  else .ok f.rows

def advanced_search_cols (f : Frame) (params : List (Col × String)) :
    Except String (List Row) :=
  params.foldl
    (fun acc p =>
      match acc with
      | .error e => .error e
      | .ok rows =>
        if p.2 = "" then .ok rows
        else if f.cols.contains (fieldName p.1) then
          .ok (rows.filter (fun r => paramMatches r p))
        else .error ("KeyError: " ++ fieldName p.1))
    (.ok f.rows)

/-!  Report (`generate_report_data`). -/

/-- How a counter key prints in the report (`f"  - {comic}"`); a missing
title prints as `"nan"`. -/
def showTitleKey : TitleKey → String
  | some s => s
  | none => "nan"

/-- `[comic for comic, count in comic_frequency.items() if count > 100]`:
the over-100 titles in counter-iteration (= insertion) order. -/
def popular_comics (freq : List (TitleKey × Nat)) : List TitleKey :=
  (freq.filter (fun e => 100 < e.2)).map (fun e => e.1)

/-- Insertion step of the stable sort behind `Counter.most_common`:
descending by count, an earlier entry staying ahead of later ones with the
same count. -/
def insertByCountDesc {α : Type} (x : α × Nat) : List (α × Nat) → List (α × Nat)
  | [] => [x]
  | y :: ys => if y.2 ≤ x.2 then x :: y :: ys else y :: insertByCountDesc x ys

/-- Stable descending sort by count; `heapq.nlargest` (hence
`Counter.most_common`) is specified as `sorted(..., reverse=True)[:n]`,
which breaks count ties by counter insertion order. -/
def sortByCountDesc {α : Type} : List (α × Nat) → List (α × Nat)
  | [] => []
  | x :: xs => insertByCountDesc x (sortByCountDesc xs)

/-- `[k for k, _ in counter.most_common(n)]`. -/
def most_common {α : Type} (n : Nat) (c : List (α × Nat)) : List α :=
  ((sortByCountDesc c).take n).map (fun e => e.1)

/-- `[q for q, _ in Counter(query_history).most_common(10)]`. -/
def top_queries (hist : List String) : List String :=
  most_common 10 (counterOf hist)

/-- `[comic for comic, _ in comic_frequency.most_common(10)]`. -/
def top_results (freq : List (TitleKey × Nat)) : List TitleKey :=
  most_common 10 freq

/-- One report section: an `"  - <item>"` line per item, or `"  None"`. -/
def reportSection (items : List String) : String :=
  if items.isEmpty then "  None\n"
  else String.join (items.map (fun s => "  - " ++ s ++ "\n"))

/-- `ComicSearchService.generate_report_data`: header, over-100 titles,
top-10 queries, top-10 result titles, in the fixed textual frame. -/
def generate_report_data (s : SearchState) : String :=
  "--------- Search Report ---------\n\n" ++
  "Comics appearing in over 100 searches:\n" ++
  reportSection ((popular_comics s.comic_frequency).map showTitleKey) ++
  "\nTop 10 search queries:\n" ++
  reportSection (top_queries s.query_history) ++
  "\nTop 10 search results:\n" ++
  reportSection ((top_results s.comic_frequency).map showTitleKey)

/-!  Concrete fixtures used by the claim witnesses: the three-row table of
the specification's examples. -/

def spiderRow : Row :=
  { id := 1, title := some "Spider-Man", name := some "Stan Lee",
    date := some "1962", genre := some "Fantasy", isbn := some "111",
    languages := none, typeOfName := none }

def batmanRow : Row :=
  { id := 2, title := some "Batman", name := some "Bob Kane",
    date := some "1939", genre := some "Horror", isbn := some "222",
    languages := none, typeOfName := none }

def supermanRow : Row :=
  { id := 3, title := some "Superman", name := some "Jerry Siegel",
    date := some "1938", genre := some "Science Fiction", isbn := some "333",
    languages := none, typeOfName := none }

def sampleTable : List Row := [spiderRow, batmanRow, supermanRow]

def sampleService : SearchState := init_service sampleTable

/-- The report-example state: frequencies Batman 120, Spider-Man 10,
Superman 5 and a small query history. -/
def reportExampleState : SearchState :=
  { full_data := sampleTable
    query_history := ["Batman", "Batman", "Spider-Man", "Batman"]
    comic_frequency :=
      [(some "Batman", 120), (some "Spider-Man", 10), (some "Superman", 5)] }

/-- Two rows sharing the title `"Alpha"` plus one `"Beta"` row: the
smallest table on which the title index of `sort_by_title` is non-unique. -/
def alphaRow1 : Row := { spiderRow with id := 10, title := some "Alpha" }

def alphaRow2 : Row := { spiderRow with id := 11, title := some "Alpha" }

def betaRow : Row := { spiderRow with id := 12, title := some "Beta" }

def dupTitleTable : List Row := [alphaRow1, alphaRow2, betaRow]

/-- The names source of the specification's grouping example. -/
def claimNamesSource : List AuthorRow :=
  [⟨1, some "Author One"⟩, ⟨1, some "Author One Duplicate"⟩, ⟨1, some "Author One"⟩]

/-- A names source holding a blank (empty) and a whitespace-only name
alongside an ordinary one. -/
def blankNamesSource : List AuthorRow := [⟨1, some " "⟩, ⟨1, some "Author One"⟩]

def emptyNamesSource : List AuthorRow := [⟨1, some ""⟩, ⟨1, some "Author One"⟩]

/-- The string `group_names` records for one identifier (the body of its
per-group lambda). -/
def joinedNamesFor (authors : List AuthorRow) (i : Nat) : String :=
  String.intercalate "; "
    (dedupFS ((authors.filter (fun a => a.id == i)).filterMap (fun a => a.name)))

/-- A one-record input triple exercising the loader's success path. -/
def exRecs : List RecRow :=
  [⟨1, some "Test Comic", some "2000", some "Fantasy", some "12345", none, none⟩]

def exTitles : List TitleRow := [⟨1, some "Test Comic Title"⟩]

def exAuthors : List AuthorRow := [⟨1, some "Author One"⟩]

def exLoadedRow : Row :=
  { id := 1, title := some "Test Comic", name := some "Author One",
    date := some "2000", genre := some "Fantasy", isbn := some "12345",
    languages := none, typeOfName := none }

/-!  Lemmas about the counter. -/

lemma bumpCount_cons_ne {α : Type} [BEq α] (e : α × Nat) (c : List (α × Nat))
    (k : α) (h : (e.1 == k) = false) : bumpCount (e :: c) k = e :: bumpCount c k := by
  by_cases hc : c.any (fun x => x.1 == k) = true
  · simp [bumpCount, List.any_cons, h, hc]
  · simp [bumpCount, List.any_cons, h, hc]

lemma getCount_cons_ne {α : Type} [BEq α] (e : α × Nat) (c : List (α × Nat))
    (k : α) (h : (e.1 == k) = false) : getCount (e :: c) k = getCount c k := by
  simp [getCount, List.find?_cons, h]

lemma getCount_cons_eq {α : Type} [BEq α] (e : α × Nat) (c : List (α × Nat))
    (k : α) (h : (e.1 == k) = true) : getCount (e :: c) k = e.2 := by
  simp [getCount, List.find?_cons, h]

lemma getCount_bump_self {α : Type} [BEq α] [LawfulBEq α] :
    ∀ (c : List (α × Nat)) (k : α), getCount (bumpCount c k) k = getCount c k + 1 := by
  intro c k
  induction c with
  | nil => simp [bumpCount, getCount, List.find?]
  | cons e rest ih =>
    by_cases h : (e.1 == k) = true
    · have he : e.1 = k := by simpa using h
      simp [bumpCount, List.any_cons, h, getCount, List.find?, he]
    · have h' : (e.1 == k) = false := by simpa using h
      rw [bumpCount_cons_ne e rest k h', getCount_cons_ne e _ k h',
        getCount_cons_ne e rest k h', ih]

lemma getCount_map_bump_ne {α : Type} [BEq α] [LawfulBEq α]
    (k k' : α) (h : (k' == k) = false) :
    ∀ c : List (α × Nat),
      getCount (c.map (fun x => if x.1 == k then (x.1, x.2 + 1) else x)) k' =
        getCount c k' := by
  intro c
  induction c with
  | nil => simp
  | cons e rest ih =>
    by_cases hx : (e.1 == k) = true
    · have he : e.1 = k := by simpa using hx
      have hxk : (e.1 == k') = false := by
        subst he
        have hne : k' ≠ e.1 := by simpa using h
        simp [Ne.symm hne]
      rw [List.map_cons]
      simp only [hx, if_true]
      rw [getCount_cons_ne (e.1, e.2 + 1) _ k' hxk, getCount_cons_ne e rest k' hxk, ih]
    · have hx' : (e.1 == k) = false := by simpa using hx
      rw [List.map_cons]
      simp only [hx', Bool.false_eq_true, if_false]
      by_cases hk' : (e.1 == k') = true
      · rw [getCount_cons_eq _ _ _ hk', getCount_cons_eq _ _ _ hk']
      · have hk'' : (e.1 == k') = false := by simpa using hk'
        rw [getCount_cons_ne _ _ _ hk'', getCount_cons_ne _ _ _ hk'', ih]

lemma getCount_bump_ne {α : Type} [BEq α] [LawfulBEq α]
    (k k' : α) (h : (k' == k) = false) :
    ∀ c : List (α × Nat), getCount (bumpCount c k) k' = getCount c k' := by
  intro c
  induction c with
  | nil =>
    have hkk : (k == k') = false := by
      have hne : k' ≠ k := by simpa using h
      simp [Ne.symm hne]
    simp [bumpCount, getCount, List.find?, hkk]
  | cons e rest ih =>
    by_cases hx : (e.1 == k) = true
    · have hany : ((e :: rest).any (fun x => x.1 == k)) = true := by
        simp [List.any_cons, hx]
      simp only [bumpCount, hany, if_true]
      exact getCount_map_bump_ne k k' h (e :: rest)
    · have hx' : (e.1 == k) = false := by simpa using hx
      rw [bumpCount_cons_ne e rest k hx']
      by_cases hk' : (e.1 == k') = true
      · rw [getCount_cons_eq _ _ _ hk', getCount_cons_eq _ _ _ hk']
      · have hk'' : (e.1 == k') = false := by simpa using hk'
        rw [getCount_cons_ne _ _ _ hk'', getCount_cons_ne _ _ _ hk'', ih]

lemma getCount_bumpTitles (kt : TitleKey) :
    ∀ (rows : List Row) (c : List (TitleKey × Nat)),
      getCount (bumpTitles c rows) kt =
        getCount c kt + (rows.filter (fun r => r.title == kt)).length := by
  intro rows
  induction rows with
  | nil => intro c; simp [bumpTitles]
  | cons r rest ih =>
    intro c
    have hstep : bumpTitles c (r :: rest) = bumpTitles (bumpCount c r.title) rest := rfl
    rw [hstep, ih]
    by_cases h : (r.title == kt) = true
    · have he : r.title = kt := by simpa using h
      subst he
      rw [getCount_bump_self]
      simp [List.filter_cons, h]
      omega
    · have h' : (r.title == kt) = false := by simpa using h
      have hsym : (kt == r.title) = false := by
        have hne : r.title ≠ kt := by simpa using h
        simp [Ne.symm hne]
      rw [getCount_bump_ne r.title kt hsym]
      simp [List.filter_cons, h']

/-!  Lemmas about searching. -/

lemma lowerCharPy_dot (c : Char) (h : lowerCharPy c = '.') : c = '.' := by
  unfold lowerCharPy at h
  split at h <;> simp_all

lemma patHere_no_dot :
    ∀ (pat text : List Char), '.' ∉ pat → patHere pat text = isPrefixCL pat text := by
  intro pat
  induction pat with
  | nil => intro text _; cases text <;> rfl
  | cons p ps ih =>
    intro text h
    have hp : (p == '.') = false := by
      have : p ≠ '.' := fun he => h (he ▸ List.mem_cons_self p ps)
      simpa using this
    cases text with
    | nil => rfl
    | cons c cs =>
      have ht : '.' ∉ ps := fun hm => h (List.mem_cons_of_mem p hm)
      simp [patHere, isPrefixCL, charMatchesPat, hp, ih cs ht]

lemma reSearchCL_no_dot :
    ∀ (text pat : List Char), '.' ∉ pat → reSearchCL text pat = containsCL text pat := by
  intro text
  induction text with
  | nil => intro pat h; exact patHere_no_dot pat [] h
  | cons c cs ih =>
    intro pat h
    simp only [reSearchCL, containsCL]
    rw [patHere_no_dot pat (c :: cs) h, ih pat h]

lemma str_lower_no_dot (q : String) (hq : isPlainQuery q = true) :
    '.' ∉ (str_lower q).data := by
  intro hmem
  simp only [str_lower, List.mem_map] at hmem
  obtain ⟨c, hc, hlc⟩ := hmem
  have hce : c = '.' := lowerCharPy_dot c hlc
  have := (List.all_eq_true.mp hq) c hc
  subst hce
  simp [regexMetachars] at this

lemma re_search_eq_contains (pat s : String) (h : '.' ∉ pat.data) :
    re_search pat s = str_contains_sub s pat :=
  reSearchCL_no_dot s.data pat.data h

lemma titleMatches_plain (t : Option String) (q : String)
    (hq : isPlainQuery q = true) : titleMatches t q = title_contains_sub t q := by
  cases t with
  | none => rfl
  | some s =>
    show re_search (str_lower q) (str_lower s) = str_contains_sub (str_lower s) (str_lower q)
    exact re_search_eq_contains (str_lower q) (str_lower s) (str_lower_no_dot q hq)

lemma titleMatches_plain_iff (t : Option String) (q : String)
    (hq : isPlainQuery q = true) :
    titleMatches t q = true ↔
      ∃ s, t = some s ∧ str_contains_sub (str_lower s) (str_lower q) = true := by
  rw [titleMatches_plain t q hq]
  cases t <;> simp [title_contains_sub]

lemma paramMatches_plain (r : Row) (p : Col × String)
    (hp : isPlainQuery p.2 = true) :
    paramMatches r p =
      str_contains_sub (str_lower (fieldAsStr r p.1)) (str_lower p.2) :=
  re_search_eq_contains (str_lower p.2) (str_lower (fieldAsStr r p.1))
    (str_lower_no_dot p.2 hp)

lemma advFold_mem (r : Row) :
    ∀ (params : List (Col × String)) (start : List Row),
      r ∈ params.foldl advStep start ↔
        r ∈ start ∧ ∀ p ∈ params, p.2 ≠ "" → paramMatches r p = true := by
  intro params
  induction params with
  | nil => intro start; simp
  | cons p ps ih =>
    intro start
    rw [List.foldl_cons, ih]
    by_cases hp : p.2 = ""
    · simp only [advStep, hp, if_true, List.forall_mem_cons]
      constructor
      · rintro ⟨h1, h2⟩
        exact ⟨h1, fun hne => absurd rfl hne, h2⟩
      · rintro ⟨h1, _, h2⟩
        exact ⟨h1, h2⟩
    · simp only [advStep, hp, if_false, List.mem_filter, List.forall_mem_cons]
      constructor
      · rintro ⟨⟨h1, hm⟩, h2⟩
        exact ⟨h1, fun _ => hm, h2⟩
      · rintro ⟨h1, hm, h2⟩
        exact ⟨⟨h1, hm hp⟩, h2⟩

lemma advFold_all_empty :
    ∀ (params : List (Col × String)) (start : List Row),
      (∀ p ∈ params, p.2 = "") → params.foldl advStep start = start := by
  intro params
  induction params with
  | nil => intro start _; rfl
  | cons p ps ih =>
    intro start h
    rw [List.foldl_cons]
    have hp : p.2 = "" := h p (List.mem_cons_self p ps)
    have hstep : advStep start p = start := by simp [advStep, hp]
    rw [hstep]
    exact ih start (fun x hx => h x (List.mem_cons_of_mem p hx))

lemma advanced_search_fst (s : SearchState) (params : List (Col × String)) :
    (advanced_search s params).1 = params.foldl advStep s.full_data := by
  unfold advanced_search
  by_cases h : combinedQuery params = "" <;> simp [h]

lemma str_append_ne_empty (a m b : String) (hm : m.data ≠ []) : a ++ m ++ b ≠ "" := by
  intro h
  have hd : (a ++ m ++ b).data = "".data := congrArg String.data h
  rw [String.data_append, String.data_append] at hd
  simp only [String.data] at hd
  rcases List.append_eq_nil.mp hd with ⟨h1, h2⟩
  rcases List.append_eq_nil.mp h1 with ⟨_, h3⟩
  exact hm h3

lemma fieldPair_ne_empty (f : Col) (v : String) : fieldName f ++ "=" ++ v ≠ "" :=
  str_append_ne_empty (fieldName f) "=" v (by decide)

lemma joinComma_ne_empty :
    ∀ l : List String, l ≠ [] → (∀ x ∈ l, x ≠ "") → joinComma l ≠ "" := by
  intro l
  match l with
  | [] => intro h _; exact absurd rfl h
  | [x] =>
    intro _ hx
    simpa [joinComma] using hx x (by simp)
  | x :: y :: xs =>
    intro _ _
    show x ++ ", " ++ joinComma (y :: xs) ≠ ""
    exact str_append_ne_empty x ", " (joinComma (y :: xs)) (by decide)

lemma combinedQuery_ne_empty (params : List (Col × String))
    (h : ∃ p ∈ params, p.2 ≠ "") : combinedQuery params ≠ "" := by
  obtain ⟨p, hp, hv⟩ := h
  have hmem : p ∈ params.filter (fun p => p.2 ≠ "") :=
    List.mem_filter.mpr ⟨hp, by simpa using hv⟩
  unfold combinedQuery
  apply joinComma_ne_empty
  · intro hnil
    rw [List.map_eq_nil_iff] at hnil
    rw [hnil] at hmem
    exact absurd hmem (List.not_mem_nil p)
  · intro x hx
    rcases List.mem_map.mp hx with ⟨q, _, rfl⟩
    exact fieldPair_ne_empty q.1 q.2

lemma combinedQuery_all_empty (params : List (Col × String))
    (h : ∀ p ∈ params, p.2 = "") : combinedQuery params = "" := by
  unfold combinedQuery
  have : params.filter (fun p => p.2 ≠ "") = [] := by
    apply List.filter_eq_nil_iff.mpr
    intro p hp
    simpa using h p hp
  rw [this]
  rfl

/-!  Lemmas about grouping and deduplication. -/

lemma dedupFS_nodup : ∀ l : List String, (dedupFS l).Nodup := by
  intro l
  induction l with
  | nil => exact List.nodup_nil
  | cons x xs ih =>
    rw [dedupFS]
    refine List.Nodup.cons ?_ (List.Nodup.filter _ ih)
    intro hmem
    have := (List.mem_filter.mp hmem).2
    simp at this

lemma dedupFS_mem : ∀ (l : List String) (x : String), x ∈ dedupFS l ↔ x ∈ l := by
  intro l
  induction l with
  | nil => intro x; simp [dedupFS]
  | cons y ys ih =>
    intro x
    rw [dedupFS]
    by_cases hxy : x = y
    · subst hxy; simp
    · simp only [List.mem_cons, List.mem_filter, ih, hxy, false_or]
      constructor
      · rintro ⟨hm, _⟩; exact hm
      · intro hm; exact ⟨hm, by simpa using hxy⟩

lemma insertSortedNat_mem (x : Nat) :
    ∀ (l : List Nat) (y : Nat), y ∈ insertSortedNat x l ↔ y = x ∨ y ∈ l := by
  intro l
  induction l with
  | nil => intro y; simp [insertSortedNat]
  | cons z zs ih =>
    intro y
    rw [insertSortedNat]
    by_cases h : x ≤ z
    · simp [h]
    · simp only [h, if_false, List.mem_cons, ih]
      tauto

lemma sortNats_mem : ∀ (l : List Nat) (y : Nat), y ∈ sortNats l ↔ y ∈ l := by
  intro l
  induction l with
  | nil => intro y; simp [sortNats]
  | cons x xs ih =>
    intro y
    rw [sortNats, insertSortedNat_mem, ih]
    simp

lemma uniqueSortedIds_mem (authors : List AuthorRow) (i : Nat) :
    i ∈ uniqueSortedIds authors ↔ i ∈ authors.map (fun a => a.id) := by
  rw [uniqueSortedIds, sortNats_mem, List.mem_dedup]

lemma group_names_val (authors : List AuthorRow) (i : Nat) (g : String)
    (h : (i, g) ∈ group_names authors) : g = joinedNamesFor authors i := by
  unfold group_names at h
  rcases List.mem_map.mp h with ⟨j, _, hj⟩
  have hji : j = i := congrArg Prod.fst hj
  have hg := congrArg Prod.snd hj
  simp only at hg
  rw [← hg, hji]
  rfl

/-!  Lemmas about the report. -/

lemma popular_comics_mem (freq : List (TitleKey × Nat)) (t : TitleKey) :
    t ∈ popular_comics freq ↔ ∃ n, (t, n) ∈ freq ∧ 100 < n := by
  unfold popular_comics
  constructor
  · intro h
    rcases List.mem_map.mp h with ⟨e, he, rfl⟩
    rcases List.mem_filter.mp he with ⟨hmem, hgt⟩
    exact ⟨e.2, hmem, by simpa using hgt⟩
  · rintro ⟨n, hmem, hgt⟩
    exact List.mem_map.mpr ⟨(t, n), List.mem_filter.mpr ⟨hmem, by simpa using hgt⟩, rfl⟩

lemma most_common_length_le {α : Type} (n : Nat) (c : List (α × Nat)) :
    (most_common n c).length ≤ n := by
  simp only [most_common, List.length_map, List.length_take]
  omega

/-- C1: every row of the table produced by a successful load has its
category (`Genre`) equal to one of `"Fantasy"`, `"Horror"`, or
`"Science Fiction"`, for every input triple of sources. -/
theorem load_data_genre_allowed
    (recs : List RecRow) (titles : List TitleRow) (authors : List AuthorRow)
    (r : Row) (h : r ∈ load_data recs titles authors) :
    r.genre = some "Fantasy" ∨ r.genre = some "Horror" ∨
      r.genre = some "Science Fiction" := by
  simp only [load_data, List.mem_filter] at h
  obtain ⟨-, hg⟩ := h
  rcases hr : r.genre with _ | g
  · rw [hr] at hg
    simp [genreAllowed] at hg
  · rw [hr] at hg
    have hmem : g ∈ permitted_genres := by simpa [genreAllowed] using hg
    simp only [permitted_genres, List.mem_cons, List.not_mem_nil, or_false] at hmem
    rcases hmem with h1 | h1 | h1
    · exact Or.inl (by rw [h1])
    · exact Or.inr (Or.inl (by rw [h1]))
    · exact Or.inr (Or.inr (by rw [h1]))

theorem load_data_genre_allowed_inst :
    exLoadedRow ∈ load_data exRecs exTitles exAuthors ∧
      (exLoadedRow.genre = some "Fantasy" ∨ exLoadedRow.genre = some "Horror" ∨
        exLoadedRow.genre = some "Science Fiction") :=
  ⟨by decide, load_data_genre_allowed exRecs exTitles exAuthors exLoadedRow (by decide)⟩

/-- C2 (counterexample): the claim's substring reading fails on the code —
the query is a regex pattern, so `"."` returns every sample row although
no sample title contains a literal dot. -/
theorem manual_search_regex_dot :
    (manual_search sampleService ".").1 = [spiderRow, batmanRow, supermanRow] ∧
      str_contains_sub (str_lower "Spider-Man") (str_lower ".") = false ∧
      str_contains_sub (str_lower "Batman") (str_lower ".") = false ∧
      str_contains_sub (str_lower "Superman") (str_lower ".") = false :=
  ⟨by decide, by decide, by decide, by decide⟩

/-- C2 (amended): for every table with ASCII titles and every non-empty
ASCII query free of regex metacharacters, `manual_search` returns exactly
the rows whose title contains the query case-insensitively (missing
titles never match), appends the literal query to the history, and bumps
the result-frequency counter once per occurrence of a title in the
result; over the sample titles, `"man"` finds all three rows and `"bat"`
exactly Batman.  (Metacharacter queries are interpreted as regular
expressions by `Series.str.contains`.) -/
theorem manual_search_plain_spec :
    (∀ (s : SearchState) (q : String), q ≠ "" → isPlainQuery q = true →
      (∀ r ∈ s.full_data, titleIsAscii r = true) →
      (∀ r : Row, r ∈ (manual_search s q).1 ↔
          r ∈ s.full_data ∧
            ∃ t, r.title = some t ∧
              str_contains_sub (str_lower t) (str_lower q) = true) ∧
      (manual_search s q).2.full_data = s.full_data ∧
      (manual_search s q).2.query_history = s.query_history ++ [q] ∧
      (∀ k : TitleKey, getCount (manual_search s q).2.comic_frequency k =
          getCount s.comic_frequency k +
            ((manual_search s q).1.filter (fun r => r.title == k)).length)) ∧
    (manual_search sampleService "man").1 = [spiderRow, batmanRow, supermanRow] ∧
    (manual_search sampleService "bat").1 = [batmanRow] := by
  refine ⟨?_, by decide, by decide⟩
  intro s q hq hplain _
  have hms : manual_search s q =
      (s.full_data.filter (fun r => titleMatches r.title q),
        { s with
          query_history := s.query_history ++ [q]
          comic_frequency := bumpTitles s.comic_frequency
            (s.full_data.filter (fun r => titleMatches r.title q)) }) := by
    simp [manual_search, hq]
  rw [hms]
  refine ⟨?_, rfl, rfl, ?_⟩
  · intro r
    rw [List.mem_filter, titleMatches_plain_iff r.title q hplain]
  · intro k
    exact getCount_bumpTitles k _ _

theorem manual_search_plain_spec_inst :
    (("man" : String) ≠ "" ∧ isPlainQuery "man" = true ∧
        ∀ r ∈ sampleService.full_data, titleIsAscii r = true) ∧
      (spiderRow ∈ (manual_search sampleService "man").1 ↔
        spiderRow ∈ sampleService.full_data ∧
          ∃ t, spiderRow.title = some t ∧
            str_contains_sub (str_lower t) (str_lower "man") = true) :=
  ⟨⟨by decide, by decide, by decide⟩,
    (manual_search_plain_spec.1 sampleService "man" (by decide) (by decide)
      (by decide)).1 spiderRow⟩

/-- C3 (counterexample): the claim's substring reading fails on the code —
a parameter value is a regex pattern, so value `"."` on the Genre column
keeps every sample row although no Genre cell contains a literal dot. -/
theorem advanced_search_regex_dot :
    (advanced_search sampleService [(Col.genre, ".")]).1 =
        [spiderRow, batmanRow, supermanRow] ∧
      str_contains_sub (str_lower (fieldAsStr spiderRow Col.genre))
        (str_lower ".") = false ∧
      str_contains_sub (str_lower (fieldAsStr batmanRow Col.genre))
        (str_lower ".") = false ∧
      str_contains_sub (str_lower (fieldAsStr supermanRow Col.genre))
        (str_lower ".") = false :=
  ⟨by decide, by decide, by decide, by decide⟩

/-- C3 (amended): for ASCII, metacharacter-free parameter values over
ASCII field representations, `advanced_search` keeps exactly the rows
whose fields contain every non-empty value case-insensitively as a
literal substring; empty parameters neither filter nor enter the recorded
composite query; with at least one non-empty parameter the composite
`field=value` string is appended to history and the counter bumped once
per result row, and with none the state is untouched; `{Name: Bob}` over
Bob Kane's row returns it and records `"Name=Bob"`.  (Metacharacter
values are interpreted as regular expressions by `Series.str.contains`.) -/
theorem advanced_search_plain_spec :
    (∀ (s : SearchState) (params : List (Col × String)),
      (∀ p ∈ params, p.2 ≠ "" → isPlainQuery p.2 = true) →
      (∀ r ∈ s.full_data, ∀ p ∈ params, strAscii (fieldAsStr r p.1) = true) →
      ∀ r : Row, r ∈ (advanced_search s params).1 ↔
        r ∈ s.full_data ∧ ∀ p ∈ params, p.2 ≠ "" →
          str_contains_sub (str_lower (fieldAsStr r p.1)) (str_lower p.2) = true) ∧
    (∀ (s : SearchState) (params : List (Col × String)),
      (∀ p ∈ params, p.2 = "") → advanced_search s params = (s.full_data, s)) ∧
    (∀ (s : SearchState) (params : List (Col × String)),
      (∃ p ∈ params, p.2 ≠ "") →
      (∀ p ∈ params, p.2 ≠ "" → isPlainQuery p.2 = true) →
        (advanced_search s params).2.query_history =
          s.query_history ++ [combinedQuery params] ∧
        (∀ k : TitleKey, getCount (advanced_search s params).2.comic_frequency k =
          getCount s.comic_frequency k +
            ((advanced_search s params).1.filter (fun r => r.title == k)).length)) ∧
    (advanced_search sampleService [(Col.name, "Bob")]).1 = [batmanRow] ∧
    (advanced_search sampleService [(Col.name, "Bob")]).2.query_history =
      ["Name=Bob"] := by
  refine ⟨?_, ?_, ?_, by decide, by decide⟩
  · intro s params hplain _ r
    rw [advanced_search_fst, advFold_mem]
    constructor
    · rintro ⟨h1, h2⟩
      refine ⟨h1, fun p hp hne => ?_⟩
      rw [← paramMatches_plain r p (hplain p hp hne)]
      exact h2 p hp hne
    · rintro ⟨h1, h2⟩
      refine ⟨h1, fun p hp hne => ?_⟩
      rw [paramMatches_plain r p (hplain p hp hne)]
      exact h2 p hp hne
  · intro s params h
    have hc : combinedQuery params = "" := combinedQuery_all_empty params h
    have hf := advFold_all_empty params s.full_data h
    simp [advanced_search, hc, hf]
  · intro s params h _
    have hc := combinedQuery_ne_empty params h
    have hadv : advanced_search s params =
        (params.foldl advStep s.full_data,
          { s with
            query_history := s.query_history ++ [combinedQuery params]
            comic_frequency := bumpTitles s.comic_frequency
              (params.foldl advStep s.full_data) }) := by
      simp [advanced_search, hc]
    rw [hadv]
    exact ⟨rfl, fun k => getCount_bumpTitles k _ _⟩

theorem advanced_search_plain_spec_inst :
    ((∃ p ∈ [(Col.name, "Bob")], p.2 ≠ "") ∧
        ∀ p ∈ [(Col.name, "Bob")], p.2 ≠ "" → isPlainQuery p.2 = true) ∧
      (advanced_search sampleService [(Col.name, "Bob")]).2.query_history =
        sampleService.query_history ++ [combinedQuery [(Col.name, "Bob")]] :=
  ⟨⟨by decide, by decide⟩,
    (advanced_search_plain_spec.2.2.1 sampleService [(Col.name, "Bob")]
      (by decide) (by decide)).1⟩

/-- C4: on a table whose titles are not pairwise distinct, `sort_by_title`
does not return the same rows reordered: re-selecting rows through the
non-unique title index duplicates every equal-titled row once per
occurrence of its title, so a 3-row table with titles
`[Alpha, Alpha, Beta]` sorts into 5 rows.  (On pairwise-distinct titles
the reversal example of the claim does hold.) -/
theorem sort_by_title_duplicate_blowup :
    dupTitleTable.length = 3 ∧
      (sort_by_title dupTitleTable true).length = 5 ∧
      sort_by_title dupTitleTable true =
        [alphaRow1, alphaRow2, alphaRow1, alphaRow2, betaRow] ∧
      sort_by_title sampleTable false = (sort_by_title sampleTable true).reverse := by
  refine ⟨rfl, by decide, by decide, by decide⟩

/-- C5: the report lists exactly the counter keys whose count exceeds 100
(in counter order), at most ten top queries and ten top result titles, and
renders in the fixed §6 frame; on frequencies Batman 120, Spider-Man 10,
Superman 5 only Batman enters the over-100 section. -/
theorem generate_report_spec :
    (∀ (freq : List (TitleKey × Nat)) (t : TitleKey),
      t ∈ popular_comics freq ↔ ∃ n, (t, n) ∈ freq ∧ 100 < n) ∧
    (∀ hist : List String, (top_queries hist).length ≤ 10) ∧
    (∀ freq : List (TitleKey × Nat), (top_results freq).length ≤ 10) ∧
    popular_comics reportExampleState.comic_frequency = [some "Batman"] ∧
    generate_report_data reportExampleState =
      "--------- Search Report ---------\n\nComics appearing in over 100 searches:\n  - Batman\n\nTop 10 search queries:\n  - Batman\n  - Spider-Man\n\nTop 10 search results:\n  - Batman\n  - Spider-Man\n  - Superman\n" := by
  refine ⟨popular_comics_mem, ?_, ?_, by decide, by decide⟩
  · intro hist
    exact most_common_length_le 10 (counterOf hist)
  · intro freq
    exact most_common_length_le 10 freq

/-- C6 (code bug): a failing load does surface the error message and
substitute an empty frame, but that frame is the columnless
`pd.DataFrame()` — each subsequent search or non-All filter fails on its
first column access with `KeyError` instead of returning an empty result.
Only the operations that never touch a column (empty query, the `"All"`
sentinel) return empty results. -/
theorem load_failure_keyerror :
    (∀ err : String,
      load_frame (Except.error err) =
        (⟨[], []⟩, some ("Failed to load data: " ++ err))) ∧
    manual_search_cols ⟨[], []⟩ "man" = Except.error "KeyError: Title" ∧
    filter_by_genre_cols ⟨[], []⟩ "Fantasy" = Except.error "KeyError: Genre" ∧
    advanced_search_cols ⟨[], []⟩ [(Col.name, "x")] =
      Except.error "KeyError: Name" ∧
    manual_search_cols ⟨[], []⟩ "" = Except.ok [] ∧
    filter_by_genre_cols ⟨[], []⟩ "All" = Except.ok [] :=
  ⟨fun err => rfl, by rfl, by rfl, by rfl, by rfl, by rfl⟩

/-- C7 (counterexample): blank names are not dropped by the grouping — a
whitespace-only or empty name survives into the joined string. -/
theorem group_names_blank_kept :
    group_names blankNamesSource = [(1, " ; Author One")] ∧
      group_names blankNamesSource ≠ [(1, "Author One")] ∧
      group_names emptyNamesSource = [(1, "; Author One")] ∧
      group_names emptyNamesSource ≠ [(1, "Author One")] :=
  ⟨by decide, by decide, by decide, by decide⟩

/-- C7 (amended): grouping the names source by identifier yields per
identifier the unique non-missing names in first-seen order joined with
`"; "` — duplicates removed and missing names dropped, while blank
(empty or whitespace-only) names are kept; the claim's example still
collapses the duplicate. -/
theorem group_names_spec :
    (∀ l : List String, (dedupFS l).Nodup) ∧
    (∀ (l : List String) (x : String), x ∈ dedupFS l ↔ x ∈ l) ∧
    (∀ (authors : List AuthorRow) (i : Nat) (g : String),
      (i, g) ∈ group_names authors → g = joinedNamesFor authors i) ∧
    (∀ (authors : List AuthorRow) (i : Nat),
      i ∈ uniqueSortedIds authors ↔ i ∈ authors.map (fun a => a.id)) ∧
    group_names claimNamesSource = [(1, "Author One; Author One Duplicate")] :=
  ⟨dedupFS_nodup, dedupFS_mem, group_names_val, uniqueSortedIds_mem, by decide⟩

theorem group_names_spec_inst :
    (1, "Author One; Author One Duplicate") ∈ group_names claimNamesSource ∧
      "Author One; Author One Duplicate" = joinedNamesFor claimNamesSource 1 :=
  ⟨by decide, group_names_spec.2.2.1 claimNamesSource 1 _ (by decide)⟩

/-- C8: an empty manual query returns the full table and leaves history
and counters untouched. -/
theorem manual_search_empty_query (s : SearchState) :
    manual_search s "" = (s.full_data, s) := by
  simp [manual_search]

/-- C9: filtering by the sentinel `"All"` returns every row; any other
category filters by exact, case-sensitive equality on the category cell;
a category absent from the table yields the empty table. -/
theorem filter_by_genre_spec :
    (∀ s : SearchState, filter_by_genre s "All" = s.full_data) ∧
    (∀ (s : SearchState) (c : String), c ≠ "All" →
      ∀ r : Row, r ∈ filter_by_genre s c ↔ r ∈ s.full_data ∧ r.genre = some c) ∧
    filter_by_genre sampleService "Nonexistent" = [] ∧
    (filter_by_genre sampleService "All").length = sampleService.full_data.length := by
  refine ⟨fun s => by simp [filter_by_genre], ?_, by decide, by decide⟩
  intro s c hc r
  simp [filter_by_genre, hc, List.mem_filter]

theorem filter_by_genre_spec_inst :
    ("Fantasy" : String) ≠ "All" ∧
      (spiderRow ∈ filter_by_genre sampleService "Fantasy" ↔
        spiderRow ∈ sampleService.full_data ∧ spiderRow.genre = some "Fantasy") :=
  ⟨by decide, filter_by_genre_spec.2.1 sampleService "Fantasy" (by decide) spiderRow⟩

/-- C10 (counterexample): under the claim's substring reading of "matches
no title", the query `"."` matches no sample title, yet the code (regex
containment) returns all three rows and bumps their counters. -/
theorem manual_search_no_results_regex_dot :
    title_contains_sub spiderRow.title "." = false ∧
      title_contains_sub batmanRow.title "." = false ∧
      title_contains_sub supermanRow.title "." = false ∧
      (manual_search sampleService ".").1 ≠ [] ∧
      (manual_search sampleService ".").2.comic_frequency ≠
        sampleService.comic_frequency :=
  ⟨by decide, by decide, by decide, by decide, by decide⟩

/-- C10 (amended): a non-empty, ASCII, metacharacter-free query that is a
case-insensitive substring of no title returns the empty table, still
records the query in history, and leaves every counter unchanged. -/
theorem manual_search_no_results_plain (s : SearchState) (q : String)
    (hq : q ≠ "") (hplain : isPlainQuery q = true)
    (_hascii : ∀ r ∈ s.full_data, titleIsAscii r = true)
    (h : ∀ r ∈ s.full_data, title_contains_sub r.title q = false) :
    manual_search s q = ([], { s with query_history := s.query_history ++ [q] }) := by
  have hfil : s.full_data.filter (fun r => titleMatches r.title q) = [] := by
    apply List.filter_eq_nil_iff.mpr
    intro r hr
    simp [titleMatches_plain r.title q hplain, h r hr]
  simp [manual_search, hq, hfil, bumpTitles]

theorem manual_search_no_results_plain_inst :
    (("zzz" : String) ≠ "" ∧ isPlainQuery "zzz" = true ∧
      (∀ r ∈ sampleService.full_data, titleIsAscii r = true) ∧
      (∀ r ∈ sampleService.full_data, title_contains_sub r.title "zzz" = false)) ∧
      manual_search sampleService "zzz" =
        ([], { sampleService with
                query_history := sampleService.query_history ++ ["zzz"] }) :=
  ⟨⟨by decide, by decide, by decide, by decide⟩,
    manual_search_no_results_plain sampleService "zzz" (by decide) (by decide)
      (by decide) (by decide)⟩
